import Mathlib

/-!
Shallow embedding of the aleph protocol-chaining orchestrator
(src/aleph/agent-chain.py, src/aleph/protocol.py, src/aleph/utils.py).

The file system, the interactive-commentary collaborator and the
model-invocation collaborator are external effects; they are modelled as
explicit function parameters bundled in `Collab`.  Python exceptions are
modelled with `Except String`, carrying the exception message.  The working
memory file (instance.md) and the system-prompt-generator slot are the two
pieces of mutable state touched by the chain; they form `ChainState`.
-/

namespace Aleph

/-- Python `str` whitespace characters (as used by `str.strip()`). -/
def isPySpace (c : Char) : Bool :=
  c = ' ' || c = '\t' || c = '\n' || c = '\r' || c = '\x0b' || c = '\x0c'

/-- Python `str.strip()`: drop leading and trailing whitespace. -/
def pyStrip (s : String) : String :=
  String.mk (((s.data.dropWhile isPySpace).reverse.dropWhile isPySpace).reverse)

/-- Python `str.lower()` restricted to ASCII letters (the only case the
program compares, namely the `"instance.md"` sentinel). -/
def pyLower (s : String) : String :=
  String.mk (s.data.map Char.toLower)

/-- utils.load_markdown: the file system is abstracted as a partial map from
path to raw content; a missing path raises FileNotFoundError, an existing one
yields its content stripped of leading/trailing whitespace. -/
def load_markdown (fileSys : String → Option String) (filepath : String) :
    Except String String :=
  match fileSys filepath with
  | none => Except.error ("Markdown file not found: " ++ filepath)
  | some text => Except.ok (pyStrip text)

/-- protocol.Protocol: one chain step.  `accesses` keeps the declared
(insertion) order of the Python dict. -/
structure Protocol where
  name : String
  prompt : String
  accesses : List (String × String)
  include_in_chain : Bool
  requires_commentary : Bool
  merge_context : String → String → String

/-- Protocol.__init__: loads the instruction file eagerly via load_markdown;
a missing instruction file is a construction-time failure.  The default
merge_context of the source is installed (it is unused by the chain). -/
def Protocol.init (fileSys : String → Option String) (name prompt_file : String)
    (include_in_chain : Bool) (accesses : List (String × String))
    (requires_commentary : Bool) : Except String Protocol :=
  match load_markdown fileSys prompt_file with
  | Except.error e => Except.error e
  | Except.ok t =>
      Except.ok { name := name, prompt := t, accesses := accesses,
                  include_in_chain := include_in_chain,
                  requires_commentary := requires_commentary,
                  merge_context := fun current new => current ++ "\n\n" ++ new }

/-- External collaborators of AgentChain: the interactive commentary provider
(aleph.ui.obtain_commentary), the model invocation `self.run` (returning the
response's chat_message), and the file system backing the reservoir files.
Either collaborator may raise; the raised message is the `Except.error`. -/
structure Collab where
  commentary : String → Except String String
  model : String → Except String String
  fileSys : String → Option String

/-- Mutable state touched by a chain: the instance.md buffer, and the current
value of `system_prompt_generator.generate_prompt` (a thunk returning a
string, represented by the string it returns). -/
structure ChainState where
  memory : String
  genPrompt : String
deriving DecidableEq, Repr

/-- AgentChain._append_to_instance: read current buffer, concatenate the
delimited section, write back. -/
def append_to_instance (current section_title content : String) : String :=
  current ++ ("\n\n---\n### " ++ section_title ++ "\n\n" ++ content ++ "\n")

/-- run_chain's re-initialization of instance.md with the user input. -/
def reset_header (user_input : String) : String :=
  "# Internal Reservoir Instance\n\n[User Input]:\n" ++ user_input ++ "\n"

/-- One entry of the access-context loop body in run_protocol: the
`instance.md` sentinel (checked after strip+lower) resolves to the working
memory; otherwise load_markdown is attempted on reservoir_dir/filename and a
failure yields `none` (the code logs a warning and omits the part). -/
def resolve_access (c : Collab) (reservoir_dir mem label filename : String) :
    Option String :=
  if pyLower (pyStrip filename) = "instance.md" then
    some ("### " ++ label ++ " (Working Memory):\n" ++ mem)
  else
    match load_markdown c.fileSys (reservoir_dir ++ "/" ++ filename) with
    | Except.ok content => some ("### " ++ label ++ ":\n" ++ content)
    | Except.error _ => none

/-- The access-context block: resolvable parts in declared order, joined with
a blank line. -/
def access_context (c : Collab) (reservoir_dir mem : String)
    (accesses : List (String × String)) : String :=
  String.intercalate "\n\n"
    (accesses.filterMap (fun lf => resolve_access c reservoir_dir mem lf.1 lf.2))

/-- The commentary section of run_protocol: present exactly when the
commentary text is non-empty (Python truthiness of the string). -/
def commentary_section (name commentary_text : String) : String :=
  if commentary_text = "" then ""
  else "\n\nCommentary for " ++ name ++ ":\n" ++ commentary_text

/-- The full prompt assembled by the synchronous run_protocol. -/
def full_prompt (p : Protocol) (ac cs user_input instance_content : String) :
    String :=
  "Protocol: " ++ p.name ++ "\n" ++
  "Instructions:\n" ++ p.prompt ++ "\n\n" ++
  "Access Contexts:\n" ++ ac ++ "\n" ++
  cs ++ "\n\n" ++
  "User Input:\n" ++ user_input ++ "\n\n" ++
  "Current Instance Context:\n" ++ instance_content ++ "\n"

/-- The full prompt assembled by run_protocol_async (no commentary slot). -/
def full_prompt_async (p : Protocol) (ac user_input instance_content : String) :
    String :=
  "Protocol: " ++ p.name ++ "\n" ++
  "Instructions:\n" ++ p.prompt ++ "\n\n" ++
  "Access Contexts:\n" ++ ac ++ "\n\n" ++
  "User Input:\n" ++ user_input ++ "\n\n" ++
  "Current Instance Context:\n" ++ instance_content ++ "\n"

/-- AgentChain.run_protocol.  Returns the step's outcome (result text, or the
raised exception's message) together with the state after the step.  Mirrors
the source line by line: skip check, commentary collection, reading
instance.md, access-context assembly, prompt assembly, overriding
generate_prompt, model invocation, restore, append.  Note that the restore of
generate_prompt happens only after a successful model call: an exception
leaves the override in place (there is no try/finally in the source). -/
def run_protocol (c : Collab) (reservoir_dir user_input : String)
    (p : Protocol) (st : ChainState) : Except String String × ChainState :=
  if p.include_in_chain = false then (Except.ok "", st)
  else
    match (if p.requires_commentary then c.commentary p.name else Except.ok "") with
    | Except.error e => (Except.error e, st)
    | Except.ok commentary_text =>
        let instance_content := st.memory
        let ac := access_context c reservoir_dir st.memory p.accesses
        let cs := commentary_section p.name commentary_text
        let fp := full_prompt p ac cs user_input instance_content
        let stOv : ChainState := { st with genPrompt := fp }
        match c.model fp with
        | Except.error e => (Except.error e, stOv)
        | Except.ok resp =>
            let result_text := pyStrip resp
            let stRe : ChainState := { stOv with genPrompt := st.genPrompt }
            (Except.ok result_text,
             { stRe with
                 memory := append_to_instance stRe.memory
                   (p.name ++ " Output") result_text })

/-- AgentChain.run_protocol_async: same skeleton but no commentary collection
and the async prompt layout; the streamed response chunks are concatenated,
which the model collaborator already denotes. -/
def run_protocol_async (c : Collab) (reservoir_dir user_input : String)
    (p : Protocol) (st : ChainState) : Except String String × ChainState :=
  if p.include_in_chain = false then (Except.ok "", st)
  else
    let instance_content := st.memory
    let ac := access_context c reservoir_dir st.memory p.accesses
    let fp := full_prompt_async p ac user_input instance_content
    let stOv : ChainState := { st with genPrompt := fp }
    match c.model fp with
    | Except.error e => (Except.error e, stOv)
    | Except.ok resp =>
        let result_text := pyStrip resp
        let stRe : ChainState := { stOv with genPrompt := st.genPrompt }
        (Except.ok result_text,
         { stRe with
             memory := append_to_instance stRe.memory
               (p.name ++ " Output") result_text })

/-- Python dict assignment `d[k] = v` on an insertion-ordered dict: an
existing key keeps its position and gets the new value, a new key is appended. -/
def dict_set (d : List (String × String)) (k v : String) :
    List (String × String) :=
  if d.any (fun kv => kv.1 = k) then
    d.map (fun kv => if kv.1 = k then (k, v) else kv)
  else d ++ [(k, v)]

/-- The value recorded in the results dict for one protocol: the output on
success, the error marker on a raised exception. -/
def step_value (r : Except String String) : String :=
  match r with
  | Except.ok output => output
  | Except.error err => "Error: " ++ err

/-- The loop body of AgentChain.run_chain: skipped protocols record "", the
rest run run_protocol under a try/except that records "Error: <msg>" and
continues. -/
def chain_loop (c : Collab) (reservoir_dir user_input : String) :
    List Protocol → List (String × String) → ChainState →
      List (String × String) × ChainState
  | [], results, st => (results, st)
  | p :: ps, results, st =>
    if p.include_in_chain = false then
      chain_loop c reservoir_dir user_input ps (dict_set results p.name "") st
    else
      let step := run_protocol c reservoir_dir user_input p st
      chain_loop c reservoir_dir user_input ps
        (dict_set results p.name (step_value step.1)) step.2

/-- The initial chain state: run_chain rewrites instance.md with the header
and the user input; `g0` is whatever generate_prompt currently is. -/
def init_state (user_input g0 : String) : ChainState :=
  { memory := reset_header user_input, genPrompt := g0 }

/-- AgentChain.run_chain. -/
def run_chain (c : Collab) (reservoir_dir user_input : String)
    (protocols : List Protocol) (g0 : String) :
    List (String × String) × ChainState :=
  chain_loop c reservoir_dir user_input protocols [] (init_state user_input g0)

/-- The loop body of AgentChain.run_chain_async: no loop-level skip check
(run_protocol_async performs it), same try/except recording. -/
def chain_loop_async (c : Collab) (reservoir_dir user_input : String) :
    List Protocol → List (String × String) → ChainState →
      List (String × String) × ChainState
  | [], results, st => (results, st)
  | p :: ps, results, st =>
    let step := run_protocol_async c reservoir_dir user_input p st
    chain_loop_async c reservoir_dir user_input ps
      (dict_set results p.name (step_value step.1)) step.2

/-- AgentChain.run_chain_async. -/
def run_chain_async (c : Collab) (reservoir_dir user_input : String)
    (protocols : List Protocol) (g0 : String) :
    List (String × String) × ChainState :=
  chain_loop_async c reservoir_dir user_input protocols [] (init_state user_input g0)

/-- The trace of a chain: each protocol of the list paired with its
run_protocol outcome, threading the state exactly as chain_loop does. -/
def chain_trace (c : Collab) (reservoir_dir user_input : String) :
    List Protocol → ChainState → List (String × Except String String)
  | [], _ => []
  | p :: ps, st =>
    let step := run_protocol c reservoir_dir user_input p st
    (p.name, step.1) :: chain_trace c reservoir_dir user_input ps step.2

/-- The sections actually appended to working memory during a chain: one
titled section per included protocol whose step succeeded, in execution
order. -/
def ok_sections (c : Collab) (reservoir_dir user_input : String) :
    List Protocol → ChainState → List (String × String)
  | [], _ => []
  | p :: ps, st =>
    let step := run_protocol c reservoir_dir user_input p st
    (match p.include_in_chain, step.1 with
     | true, Except.ok rt => [(p.name ++ " Output", rt)]
     | _, _ => []) ++ ok_sections c reservoir_dir user_input ps step.2

/-- The spec's description of the full prompt (section 4.3 step d): the
concatenation, in this fixed order, of the protocol name header, the
instruction text, the access-context block, the commentary block (present
exactly when the commentary text is non-empty), the raw user-input block and
the working-memory block.  Stated independently of `full_prompt`, following
the spec's wording, to compare the code's assembly against the spec's
order. -/
def spec_prompt_blocks (p : Protocol) (ac ct ui mem : String) : String :=
  ("Protocol: " ++ p.name ++ "\n")
  ++ ("Instructions:\n" ++ p.prompt ++ "\n\n")
  ++ ("Access Contexts:\n" ++ ac ++ "\n")
  ++ (if ct = "" then "" else "\n\nCommentary for " ++ p.name ++ ":\n" ++ ct)
  ++ ("\n\n" ++ "User Input:\n" ++ ui ++ "\n\n")
  ++ ("Current Instance Context:\n" ++ mem ++ "\n")

/-! Helper lemmas about single steps and the chain loops. -/

/-- A protocol with the inclusion flag off returns the empty result and
leaves the state untouched. -/
theorem run_protocol_skip (c : Collab) (rdir ui : String) (p : Protocol)
    (st : ChainState) (h : p.include_in_chain = false) :
    run_protocol c rdir ui p st = (Except.ok "", st) := by
  simp [run_protocol, h]

/-- Unfolding of run_protocol for an included protocol whose commentary
collection returns `ct`. -/
theorem run_protocol_run (c : Collab) (rdir ui : String) (p : Protocol)
    (st : ChainState) (ct : String)
    (hin : p.include_in_chain = true)
    (hct : (if p.requires_commentary then c.commentary p.name else Except.ok "")
             = Except.ok ct) :
    run_protocol c rdir ui p st
      = (match c.model (full_prompt p (access_context c rdir st.memory p.accesses)
                 (commentary_section p.name ct) ui st.memory) with
         | Except.error e =>
             (Except.error e,
              { st with genPrompt := full_prompt p (access_context c rdir st.memory p.accesses) (commentary_section p.name ct) ui st.memory })
         | Except.ok resp =>
             (Except.ok (pyStrip resp),
              { memory := append_to_instance st.memory (p.name ++ " Output") (pyStrip resp),
                genPrompt := st.genPrompt })) := by
  simp only [run_protocol, hin, hct]
  rfl

/-- The commentary collaborator raising propagates out of run_protocol with
the state untouched. -/
theorem run_protocol_comm_error (c : Collab) (rdir ui : String) (p : Protocol)
    (st : ChainState) (e : String)
    (hin : p.include_in_chain = true) (hreq : p.requires_commentary = true)
    (herr : c.commentary p.name = Except.error e) :
    run_protocol c rdir ui p st = (Except.error e, st) := by
  simp [run_protocol, hin, hreq, herr]

/-- The memory after one step: appended section on success of an included
protocol, unchanged otherwise. -/
theorem run_protocol_memory (c : Collab) (rdir ui : String) (p : Protocol)
    (st : ChainState) :
    (run_protocol c rdir ui p st).2.memory
      = (match p.include_in_chain, (run_protocol c rdir ui p st).1 with
         | true, Except.ok rt =>
             append_to_instance st.memory (p.name ++ " Output") rt
         | _, _ => st.memory) := by
  by_cases h : p.include_in_chain = false
  · simp [run_protocol_skip c rdir ui p st h, h]
  · have hin : p.include_in_chain = true := by
      cases hv : p.include_in_chain
      · exact absurd hv h
      · rfl
    cases hct : (if p.requires_commentary then c.commentary p.name else Except.ok "") with
    | error e =>
        cases hreq : p.requires_commentary with
        | false => simp [hreq] at hct
        | true =>
            rw [hreq] at hct
            simp only [if_true] at hct
            simp [run_protocol_comm_error c rdir ui p st e hin hreq hct, hin]
    | ok ct =>
        rw [run_protocol_run c rdir ui p st ct hin hct]
        cases hm : c.model (full_prompt p (access_context c rdir st.memory p.accesses)
            (commentary_section p.name ct) ui st.memory) with
        | error e => simp [hin]
        | ok resp => simp [hin]

/-- The trace pairs the protocols with their outcomes in list order. -/
theorem chain_trace_names (c : Collab) (rdir ui : String) :
    ∀ (ps : List Protocol) (st : ChainState),
      (chain_trace c rdir ui ps st).map (fun nr => nr.1) = ps.map Protocol.name
  | [], _ => rfl
  | p :: ps, st => by
      simp [chain_trace, chain_trace_names c rdir ui ps]

/-- Python dict assignment with a fresh key appends the pair. -/
theorem dict_set_new (d : List (String × String)) (k v : String)
    (h : ∀ kv ∈ d, kv.1 ≠ k) : dict_set d k v = d ++ [(k, v)] := by
  unfold dict_set
  rw [if_neg]
  simp only [List.any_eq_true, decide_eq_true_eq, not_exists]
  intro kv hkv
  exact h kv hkv.1 hkv.2

/-- Both branches of the synchronous loop body are the uniform shape
"record step_value, thread the step's state". -/
theorem chain_loop_cons (c : Collab) (rdir ui : String) (p : Protocol)
    (ps : List Protocol) (results : List (String × String)) (st : ChainState) :
    chain_loop c rdir ui (p :: ps) results st
      = chain_loop c rdir ui ps
          (dict_set results p.name (step_value (run_protocol c rdir ui p st).1))
          (run_protocol c rdir ui p st).2 := by
  by_cases h : p.include_in_chain = false
  · rw [run_protocol_skip c rdir ui p st h]
    simp [chain_loop, h, step_value]
  · simp [chain_loop, h]

/-- With keys disjoint from the protocols' names and pairwise distinct
protocol names, the synchronous chain loop extends the accumulated results
with one (name, recorded value) pair per protocol, in order. -/
theorem chain_loop_fst (c : Collab) (rdir ui : String) :
    ∀ (ps : List Protocol) (results : List (String × String)) (st : ChainState),
      (∀ p ∈ ps, ∀ kv ∈ results, kv.1 ≠ p.name) →
      (ps.map Protocol.name).Nodup →
      (chain_loop c rdir ui ps results st).1
        = results ++ (chain_trace c rdir ui ps st).map
            (fun nr => (nr.1, step_value nr.2))
  | [], results, st, _, _ => by simp [chain_loop, chain_trace]
  | p :: ps, results, st, hdisj, hnodup => by
      have hfresh : ∀ kv ∈ results, kv.1 ≠ p.name :=
        fun kv hkv => hdisj p (List.mem_cons_self p ps) kv hkv
      have hnotin : p.name ∉ ps.map Protocol.name := by
        have hthis := hnodup
        simp only [List.map_cons, List.nodup_cons] at hthis
        exact hthis.1
      have hnodup' : (ps.map Protocol.name).Nodup := by
        have hthis := hnodup
        simp only [List.map_cons, List.nodup_cons] at hthis
        exact hthis.2
      have hdisj' : ∀ v, ∀ q ∈ ps, ∀ kv ∈ results ++ [(p.name, v)], kv.1 ≠ q.name := by
        intro v q hq kv hkv
        rcases List.mem_append.mp hkv with hkv | hkv
        · exact hdisj q (List.mem_cons_of_mem p hq) kv hkv
        · have hkveq : kv = (p.name, v) := List.mem_singleton.mp hkv
          subst hkveq
          intro hEq
          have hEq' : p.name = q.name := hEq
          apply hnotin
          rw [hEq']
          exact List.mem_map_of_mem Protocol.name hq
      rw [chain_loop_cons]
      rw [dict_set_new results p.name _ hfresh]
      rw [chain_loop_fst c rdir ui ps _ _ (hdisj' _) hnodup']
      simp [chain_trace]

/-- The working memory after the synchronous loop is the fold of the
appended sections over the starting memory. -/
theorem chain_loop_memory (c : Collab) (rdir ui : String) :
    ∀ (ps : List Protocol) (results : List (String × String)) (st : ChainState),
      (chain_loop c rdir ui ps results st).2.memory
        = (ok_sections c rdir ui ps st).foldl
            (fun m s => append_to_instance m s.1 s.2) st.memory
  | [], _, _ => by simp [chain_loop, ok_sections]
  | p :: ps, results, st => by
      have key : (run_protocol c rdir ui p st).2.memory
          = (((match p.include_in_chain, (run_protocol c rdir ui p st).1 with
               | true, Except.ok rt => [(p.name ++ " Output", rt)]
               | _, _ => []) : List (String × String)).foldl
              (fun m s => append_to_instance m s.1 s.2) st.memory) := by
        have hmem := run_protocol_memory c rdir ui p st
        cases hin : p.include_in_chain with
        | false =>
            rw [hin] at hmem
            rw [hmem]
            simp
        | true =>
            rw [hin] at hmem
            cases hr : (run_protocol c rdir ui p st).1 with
            | error e =>
                rw [hr] at hmem
                rw [hmem]
                simp
            | ok rt =>
                rw [hr] at hmem
                rw [hmem]
                simp
      rw [chain_loop_cons]
      rw [chain_loop_memory c rdir ui ps _ _]
      rw [key]
      simp only [ok_sections]
      rw [List.foldl_append]

/-- The outcome of an included step whose commentary collection succeeded is
exactly the model collaborator's answer on the assembled prompt (trimmed),
whatever the reservoir bindings did. -/
theorem run_protocol_result (c : Collab) (rdir ui : String) (p : Protocol)
    (st : ChainState) (ct : String)
    (hin : p.include_in_chain = true)
    (hct : (if p.requires_commentary then c.commentary p.name else Except.ok "")
             = Except.ok ct) :
    (run_protocol c rdir ui p st).1
      = Except.map pyStrip
          (c.model (full_prompt p (access_context c rdir st.memory p.accesses)
             (commentary_section p.name ct) ui st.memory)) := by
  rw [run_protocol_run c rdir ui p st ct hin hct]
  cases hm : c.model (full_prompt p (access_context c rdir st.memory p.accesses)
      (commentary_section p.name ct) ui st.memory) with
  | error e => rfl
  | ok resp => rfl

/-- A skipped protocol contained in the chain has the empty string as its
recorded value in the mapped trace. -/
theorem chain_skip_recorded (c : Collab) (rdir ui : String) (p : Protocol)
    (hskip : p.include_in_chain = false) :
    ∀ (ps : List Protocol) (st : ChainState), p ∈ ps →
      (p.name, "") ∈ (chain_trace c rdir ui ps st).map
          (fun nr => (nr.1, step_value nr.2))
  | [], _, hmem => absurd hmem (List.not_mem_nil p)
  | q :: ps, st, hmem => by
      simp only [chain_trace, List.map_cons]
      rcases List.mem_cons.mp hmem with heq | hmem'
      · subst heq
        rw [run_protocol_skip c rdir ui p st hskip]
        exact List.mem_cons_self _ _
      · exact List.mem_cons_of_mem _
          (chain_skip_recorded c rdir ui p hskip ps _ hmem')

/-- Async skip branch. -/
theorem run_protocol_async_skip (c : Collab) (rdir ui : String) (p : Protocol)
    (st : ChainState) (h : p.include_in_chain = false) :
    run_protocol_async c rdir ui p st = (Except.ok "", st) := by
  simp [run_protocol_async, h]

/-- Unfolding of run_protocol_async for an included protocol. -/
theorem run_protocol_async_run (c : Collab) (rdir ui : String) (p : Protocol)
    (st : ChainState) (hin : p.include_in_chain = true) :
    run_protocol_async c rdir ui p st
      = (match c.model (full_prompt_async p
                 (access_context c rdir st.memory p.accesses) ui st.memory) with
         | Except.error e =>
             (Except.error e,
              { st with genPrompt := full_prompt_async p (access_context c rdir st.memory p.accesses) ui st.memory })
         | Except.ok resp =>
             (Except.ok (pyStrip resp),
              { memory := append_to_instance st.memory (p.name ++ " Output") (pyStrip resp),
                genPrompt := st.genPrompt })) := by
  simp only [run_protocol_async, hin]
  rfl

/-- The async loop body in uniform shape. -/
theorem chain_loop_async_cons (c : Collab) (rdir ui : String) (p : Protocol)
    (ps : List Protocol) (results : List (String × String)) (st : ChainState) :
    chain_loop_async c rdir ui (p :: ps) results st
      = chain_loop_async c rdir ui ps
          (dict_set results p.name
            (step_value (run_protocol_async c rdir ui p st).1))
          (run_protocol_async c rdir ui p st).2 := rfl

/-- When the model collaborator's answer does not depend on the prompt text
and no protocol requires commentary, the synchronous and the asynchronous
loops record the same results and build the same working memory from states
with equal memories. -/
theorem chain_loops_agree (c : Collab) (rdir ui : String)
    (hmodel : ∀ s t : String, c.model s = c.model t) :
    ∀ (ps : List Protocol), (∀ p ∈ ps, p.requires_commentary = false) →
      ∀ (results : List (String × String)) (stS stA : ChainState),
        stS.memory = stA.memory →
        (chain_loop c rdir ui ps results stS).1
            = (chain_loop_async c rdir ui ps results stA).1
        ∧ (chain_loop c rdir ui ps results stS).2.memory
            = (chain_loop_async c rdir ui ps results stA).2.memory
  | [], _, results, stS, stA, hm => ⟨rfl, hm⟩
  | p :: ps, hcomm, results, stS, stA, hm => by
      have hcp : p.requires_commentary = false :=
        hcomm p (List.mem_cons_self p ps)
      have hcomm' : ∀ q ∈ ps, q.requires_commentary = false :=
        fun q hq => hcomm q (List.mem_cons_of_mem p hq)
      by_cases hin : p.include_in_chain = false
      · rw [chain_loop_cons, chain_loop_async_cons,
            run_protocol_skip c rdir ui p stS hin,
            run_protocol_async_skip c rdir ui p stA hin]
        exact chain_loops_agree c rdir ui hmodel ps hcomm' _ stS stA hm
      · have hin' : p.include_in_chain = true := by
          cases hv : p.include_in_chain
          · exact absurd hv hin
          · rfl
        have hct : (if p.requires_commentary then c.commentary p.name else Except.ok "")
            = Except.ok "" := by
          rw [hcp]
          rfl
        rw [chain_loop_cons, chain_loop_async_cons,
            run_protocol_run c rdir ui p stS "" hin' hct,
            run_protocol_async_run c rdir ui p stA hin']
        have hmm : c.model (full_prompt p (access_context c rdir stS.memory p.accesses)
              (commentary_section p.name "") ui stS.memory)
            = c.model (full_prompt_async p (access_context c rdir stA.memory p.accesses)
                ui stA.memory) := hmodel _ _
        cases hcall : c.model (full_prompt_async p
            (access_context c rdir stA.memory p.accesses) ui stA.memory) with
        | error e =>
            rw [hcall] at hmm
            rw [hmm]
            exact chain_loops_agree c rdir ui hmodel ps hcomm' _ _ _ hm
        | ok resp =>
            rw [hcall] at hmm
            rw [hmm]
            refine chain_loops_agree c rdir ui hmodel ps hcomm' _ _ _ ?_
            show append_to_instance stS.memory (p.name ++ " Output") (pyStrip resp)
                = append_to_instance stA.memory (p.name ++ " Output") (pyStrip resp)
            rw [hm]

/-! The claims. -/

/-- C1: for every list of protocols (with pairwise-distinct names, as dicts
key results by name) and every step that raises, run_chain records
"Error: <message>" under that protocol's name and continues: the results are
exactly the per-protocol trace outcomes, every protocol of the list appears
in order, and an erroring step contributes its error marker. -/
theorem run_chain_error_isolation (c : Collab) (rdir ui g0 : String)
    (ps : List Protocol) (hnodup : (ps.map Protocol.name).Nodup) :
    (run_chain c rdir ui ps g0).1
      = (chain_trace c rdir ui ps (init_state ui g0)).map
          (fun nr => (nr.1, step_value nr.2))
    ∧ (chain_trace c rdir ui ps (init_state ui g0)).map (fun nr => nr.1)
        = ps.map Protocol.name
    ∧ (∀ nr ∈ chain_trace c rdir ui ps (init_state ui g0), ∀ e : String,
        nr.2 = Except.error e →
        (nr.1, "Error: " ++ e) ∈ (run_chain c rdir ui ps g0).1) := by
  have hres : (run_chain c rdir ui ps g0).1
      = (chain_trace c rdir ui ps (init_state ui g0)).map
          (fun nr => (nr.1, step_value nr.2)) := by
    unfold run_chain
    rw [chain_loop_fst c rdir ui ps [] (init_state ui g0)
          (fun q hq kv hkv => absurd hkv (List.not_mem_nil kv)) hnodup]
    simp
  refine ⟨hres, chain_trace_names c rdir ui ps _, ?_⟩
  intro nr hnr e he
  rw [hres]
  have hmem : (nr.1, step_value nr.2)
      ∈ (chain_trace c rdir ui ps (init_state ui g0)).map
          (fun nr => (nr.1, step_value nr.2)) :=
    List.mem_map_of_mem _ hnr
  rw [he] at hmem
  exact hmem

/-- A concrete run for C1: the first protocol's commentary collection raises
"boom", the second succeeds; the chain records the error marker and still
runs the second protocol. -/
theorem run_chain_error_isolation_witness :
    (run_chain
      { commentary := fun _ => Except.error "boom",
        model := fun _ => Except.ok "out",
        fileSys := fun _ => none } "R" "u"
      [{ name := "A", prompt := "IA", accesses := [], include_in_chain := true,
         requires_commentary := true, merge_context := fun a b => a ++ b },
       { name := "B", prompt := "IB", accesses := [], include_in_chain := true,
         requires_commentary := false, merge_context := fun a b => a ++ b }]
      "G").1
      = [("A", "Error: boom"), ("B", "out")] := by
  have h := run_chain_error_isolation
      { commentary := fun _ => Except.error "boom",
        model := fun _ => Except.ok "out",
        fileSys := fun _ => none } "R" "u" "G"
      [{ name := "A", prompt := "IA", accesses := [], include_in_chain := true,
         requires_commentary := true, merge_context := fun a b => a ++ b },
       { name := "B", prompt := "IB", accesses := [], include_in_chain := true,
         requires_commentary := false, merge_context := fun a b => a ++ b }]
      (by decide)
  rw [h.1]
  decide

/-- C2: after run_chain, the working memory is the reset header (with the
raw user input) with exactly the titled sections of the successful included
steps folded on in execution order; every append keeps the previous buffer
as an unchanged initial segment; a skipped or failed step leaves the buffer
unchanged. -/
theorem run_chain_memory_sections (c : Collab) (rdir ui g0 : String)
    (ps : List Protocol) :
    (run_chain c rdir ui ps g0).2.memory
      = (ok_sections c rdir ui ps (init_state ui g0)).foldl
          (fun m s => append_to_instance m s.1 s.2) (reset_header ui)
    ∧ (∀ m t b : String, ∃ tail : String, append_to_instance m t b = m ++ tail)
    ∧ (∀ (q : Protocol) (st' : ChainState), q.include_in_chain = false →
        (run_protocol c rdir ui q st').2.memory = st'.memory)
    ∧ (∀ (q : Protocol) (st' : ChainState) (e : String),
        (run_protocol c rdir ui q st').1 = Except.error e →
        (run_protocol c rdir ui q st').2.memory = st'.memory) := by
  refine ⟨?_, ?_, ?_, ?_⟩
  · exact chain_loop_memory c rdir ui ps [] (init_state ui g0)
  · intro m t b
    exact ⟨_, rfl⟩
  · intro q st' hq
    rw [run_protocol_skip c rdir ui q st' hq]
  · intro q st' e he
    have hmem := run_protocol_memory c rdir ui q st'
    rw [he] at hmem
    cases hq : q.include_in_chain with
    | false => rw [hq] at hmem; exact hmem
    | true => rw [hq] at hmem; exact hmem

/-- A concrete run for C2: a chain of a succeeding step and a skipped step
produces the header plus exactly one appended section; the skipped step
leaves a buffer untouched. -/
theorem run_chain_memory_sections_witness :
    (run_chain
      { commentary := fun _ => Except.ok "",
        model := fun _ => Except.ok " out ",
        fileSys := fun _ => none } "R" "u"
      [{ name := "A", prompt := "IA", accesses := [], include_in_chain := true,
         requires_commentary := false, merge_context := fun a b => a ++ b },
       { name := "B", prompt := "IB", accesses := [], include_in_chain := false,
         requires_commentary := false, merge_context := fun a b => a ++ b }]
      "G").2.memory
      = reset_header "u" ++ "\n\n---\n### A Output\n\nout\n"
    ∧ (run_protocol
        { commentary := fun _ => Except.ok "",
          model := fun _ => Except.ok " out ",
          fileSys := fun _ => none } "R" "u"
        { name := "B", prompt := "IB", accesses := [], include_in_chain := false,
          requires_commentary := false, merge_context := fun a b => a ++ b }
        { memory := "M", genPrompt := "G" }).2.memory = "M" := by
  constructor
  · have h := run_chain_memory_sections
        { commentary := fun _ => Except.ok "",
          model := fun _ => Except.ok " out ",
          fileSys := fun _ => none } "R" "u" "G"
        [{ name := "A", prompt := "IA", accesses := [], include_in_chain := true,
           requires_commentary := false, merge_context := fun a b => a ++ b },
         { name := "B", prompt := "IB", accesses := [], include_in_chain := false,
           requires_commentary := false, merge_context := fun a b => a ++ b }]
    rw [h.1]
    decide
  · have h := run_chain_memory_sections
        { commentary := fun _ => Except.ok "",
          model := fun _ => Except.ok " out ",
          fileSys := fun _ => none } "R" "u" "G" []
    exact h.2.2.1
      { name := "B", prompt := "IB", accesses := [], include_in_chain := false,
        requires_commentary := false, merge_context := fun a b => a ++ b }
      { memory := "M", genPrompt := "G" } rfl

/-- C4: for pairwise-distinct protocol names, the results of run_chain have
one entry per protocol regardless of the inclusion flags, with the keys in
input-list order. -/
theorem run_chain_one_entry_per_protocol (c : Collab) (rdir ui g0 : String)
    (ps : List Protocol) (hnodup : (ps.map Protocol.name).Nodup) :
    (run_chain c rdir ui ps g0).1.map Prod.fst = ps.map Protocol.name
    ∧ (run_chain c rdir ui ps g0).1.length = ps.length := by
  have hres : (run_chain c rdir ui ps g0).1
      = (chain_trace c rdir ui ps (init_state ui g0)).map
          (fun nr => (nr.1, step_value nr.2)) := by
    unfold run_chain
    rw [chain_loop_fst c rdir ui ps [] (init_state ui g0)
          (fun q hq kv hkv => absurd hkv (List.not_mem_nil kv)) hnodup]
    simp
  have hnames := chain_trace_names c rdir ui ps (init_state ui g0)
  constructor
  · rw [hres, List.map_map]
    exact hnames
  · rw [hres, List.length_map]
    have hlen := congrArg List.length hnames
    simp only [List.length_map] at hlen
    exact hlen

/-- A concrete run for C4: one included and one excluded protocol, two keys
in list order. -/
theorem run_chain_one_entry_per_protocol_witness :
    (run_chain
      { commentary := fun _ => Except.ok "",
        model := fun _ => Except.ok "out",
        fileSys := fun _ => none } "R" "u"
      [{ name := "A", prompt := "IA", accesses := [], include_in_chain := true,
         requires_commentary := false, merge_context := fun a b => a ++ b },
       { name := "B", prompt := "IB", accesses := [], include_in_chain := false,
         requires_commentary := false, merge_context := fun a b => a ++ b }]
      "G").1.map Prod.fst = ["A", "B"] := by
  have h := run_chain_one_entry_per_protocol
      { commentary := fun _ => Except.ok "",
        model := fun _ => Except.ok "out",
        fileSys := fun _ => none } "R" "u" "G"
      [{ name := "A", prompt := "IA", accesses := [], include_in_chain := true,
         requires_commentary := false, merge_context := fun a b => a ++ b },
       { name := "B", prompt := "IB", accesses := [], include_in_chain := false,
         requires_commentary := false, merge_context := fun a b => a ++ b }]
      (by decide)
  exact h.1.trans rfl

/-- C8: a protocol with the inclusion flag off yields the empty-string
result, has no effect on the state, its outcome is independent of every
collaborator (so no model call is made), and the chain records "" under its
name. -/
theorem skipped_protocol_no_effect (c c' : Collab) (rdir rdir' ui ui' g0 : String)
    (p : Protocol) (st : ChainState) (ps : List Protocol)
    (hskip : p.include_in_chain = false) :
    run_protocol c rdir ui p st = (Except.ok "", st)
    ∧ run_protocol c rdir ui p st = run_protocol c' rdir' ui' p st
    ∧ (p ∈ ps → (ps.map Protocol.name).Nodup →
        (p.name, "") ∈ (run_chain c rdir ui ps g0).1) := by
  refine ⟨run_protocol_skip c rdir ui p st hskip, ?_, ?_⟩
  · rw [run_protocol_skip c rdir ui p st hskip,
        run_protocol_skip c' rdir' ui' p st hskip]
  · intro hmem hnodup
    unfold run_chain
    rw [chain_loop_fst c rdir ui ps [] (init_state ui g0)
          (fun q hq kv hkv => absurd hkv (List.not_mem_nil kv)) hnodup]
    simp only [List.nil_append]
    exact chain_skip_recorded c rdir ui p hskip ps _ hmem

/-- A concrete run for C8: the excluded protocol records "" in the chain's
results and leaves the state alone. -/
theorem skipped_protocol_no_effect_witness :
    run_protocol
      { commentary := fun _ => Except.ok "",
        model := fun _ => Except.ok "out",
        fileSys := fun _ => none } "R" "u"
      { name := "B", prompt := "IB", accesses := [], include_in_chain := false,
        requires_commentary := false, merge_context := fun a b => a ++ b }
      { memory := "M", genPrompt := "G" }
      = (Except.ok "", { memory := "M", genPrompt := "G" })
    ∧ ("B", "")
        ∈ (run_chain
            { commentary := fun _ => Except.ok "",
              model := fun _ => Except.ok "out",
              fileSys := fun _ => none } "R" "u"
            [{ name := "B", prompt := "IB", accesses := [], include_in_chain := false,
               requires_commentary := false, merge_context := fun a b => a ++ b }]
            "G").1 := by
  have h := skipped_protocol_no_effect
      { commentary := fun _ => Except.ok "",
        model := fun _ => Except.ok "out",
        fileSys := fun _ => none }
      { commentary := fun _ => Except.ok "",
        model := fun _ => Except.ok "out",
        fileSys := fun _ => none } "R" "R" "u" "u" "G"
      { name := "B", prompt := "IB", accesses := [], include_in_chain := false,
        requires_commentary := false, merge_context := fun a b => a ++ b }
      { memory := "M", genPrompt := "G" }
      [{ name := "B", prompt := "IB", accesses := [], include_in_chain := false,
         requires_commentary := false, merge_context := fun a b => a ++ b }]
      rfl
  exact ⟨h.1, h.2.2 (List.mem_singleton.mpr rfl) (by decide)⟩

/-- C3: the model collaborator of an executed step receives exactly the
spec-ordered concatenation of the protocol name header, the instruction
text, the access-context block, the commentary block (present exactly when
the commentary text is non-empty), the raw user input and the working memory
as it stands just before this step's own output is appended. -/
theorem run_protocol_prompt_order (c : Collab) (rdir ui : String) (p : Protocol)
    (st : ChainState) (ct : String)
    (hin : p.include_in_chain = true)
    (hct : (if p.requires_commentary then c.commentary p.name else Except.ok "")
             = Except.ok ct) :
    (run_protocol c rdir ui p st).1
      = Except.map pyStrip
          (c.model (spec_prompt_blocks p
             (access_context c rdir st.memory p.accesses) ct ui st.memory)) := by
  have hpe : full_prompt p (access_context c rdir st.memory p.accesses)
        (commentary_section p.name ct) ui st.memory
      = spec_prompt_blocks p (access_context c rdir st.memory p.accesses)
          ct ui st.memory := by
    unfold full_prompt spec_prompt_blocks commentary_section
    simp only [String.append_assoc]
  rw [run_protocol_result c rdir ui p st ct hin hct, hpe]

/-- A concrete step for C3 with an echoing model collaborator. -/
theorem run_protocol_prompt_order_witness :
    (run_protocol
      { commentary := fun _ => Except.ok "",
        model := fun s => Except.ok s,
        fileSys := fun _ => none } "R" "u"
      { name := "A", prompt := "I", accesses := [], include_in_chain := true,
        requires_commentary := false, merge_context := fun a b => a ++ b }
      { memory := "M", genPrompt := "G" }).1
      = Except.ok (pyStrip (spec_prompt_blocks
          { name := "A", prompt := "I", accesses := [], include_in_chain := true,
            requires_commentary := false, merge_context := fun a b => a ++ b }
          "" "" "u" "M")) := by
  have h := run_protocol_prompt_order
      { commentary := fun _ => Except.ok "",
        model := fun s => Except.ok s,
        fileSys := fun _ => none } "R" "u"
      { name := "A", prompt := "I", accesses := [], include_in_chain := true,
        requires_commentary := false, merge_context := fun a b => a ++ b }
      { memory := "M", genPrompt := "G" } "" rfl rfl
  exact h

/-- C5: an unresolvable reservoir binding only drops its own subsection from
the access-context block (the remaining resolvable subsections are joined in
declared order), and the step still invokes the model collaborator: its
outcome is still the model's answer on the assembled prompt. -/
theorem reservoir_binding_fail_soft (c : Collab) (rdir ui : String)
    (p : Protocol) (st : ChainState) (ct label filename : String)
    (before after : List (String × String))
    (hin : p.include_in_chain = true)
    (hct : (if p.requires_commentary then c.commentary p.name else Except.ok "")
             = Except.ok ct)
    (hacc : p.accesses = before ++ (label, filename) :: after)
    (hsent : pyLower (pyStrip filename) ≠ "instance.md")
    (hfail : c.fileSys (rdir ++ "/" ++ filename) = none) :
    access_context c rdir st.memory p.accesses
      = String.intercalate "\n\n" ((before ++ after).filterMap
          (fun lf => resolve_access c rdir st.memory lf.1 lf.2))
    ∧ (run_protocol c rdir ui p st).1
        = Except.map pyStrip
            (c.model (full_prompt p (access_context c rdir st.memory p.accesses)
               (commentary_section p.name ct) ui st.memory)) := by
  have hnone : resolve_access c rdir st.memory label filename = none := by
    unfold resolve_access
    rw [if_neg hsent]
    unfold load_markdown
    rw [hfail]
  constructor
  · unfold access_context
    rw [hacc]
    simp [List.filterMap_append, List.filterMap_cons, hnone]
  · exact run_protocol_result c rdir ui p st ct hin hct

/-- A concrete step for C5: the only binding fails, the access context is
empty, and the model is still invoked. -/
theorem reservoir_binding_fail_soft_witness :
    access_context
      { commentary := fun _ => Except.ok "",
        model := fun _ => Except.ok "out",
        fileSys := fun _ => none } "R" "M" [("L", "missing.md")]
      = ""
    ∧ (run_protocol
        { commentary := fun _ => Except.ok "",
          model := fun _ => Except.ok "out",
          fileSys := fun _ => none } "R" "u"
        { name := "A", prompt := "I", accesses := [("L", "missing.md")],
          include_in_chain := true, requires_commentary := false,
          merge_context := fun a b => a ++ b }
        { memory := "M", genPrompt := "G" }).1 = Except.ok "out" := by
  have h := reservoir_binding_fail_soft
      { commentary := fun _ => Except.ok "",
        model := fun _ => Except.ok "out",
        fileSys := fun _ => none } "R" "u"
      { name := "A", prompt := "I", accesses := [("L", "missing.md")],
        include_in_chain := true, requires_commentary := false,
        merge_context := fun a b => a ++ b }
      { memory := "M", genPrompt := "G" } "" "L" "missing.md" [] []
      rfl rfl rfl (by decide) rfl
  exact ⟨h.1.trans rfl, h.2.trans rfl⟩

/-- A concrete step refuting C7 as stated: the model invocation raises, and
generate_prompt is left overridden instead of being restored to its pre-call
value "G0". -/
theorem generate_prompt_not_restored_on_error :
    (run_protocol
      { commentary := fun _ => Except.ok "",
        model := fun _ => Except.error "boom",
        fileSys := fun _ => none } "R" "u"
      { name := "A", prompt := "I", accesses := [], include_in_chain := true,
        requires_commentary := false, merge_context := fun a b => a ++ b }
      { memory := "M", genPrompt := "G0" }).2.genPrompt ≠ "G0" := by
  decide

/-- C7 amended: the override of generate_prompt is restored to its pre-call
value when the model invocation returns normally; when it raises, the
override persists — generate_prompt is left equal to the step's assembled
full prompt. -/
theorem generate_prompt_restore (c : Collab) (rdir ui : String) (p : Protocol)
    (st : ChainState) (ct : String)
    (hin : p.include_in_chain = true)
    (hct : (if p.requires_commentary then c.commentary p.name else Except.ok "")
             = Except.ok ct) :
    (∀ resp : String,
        c.model (full_prompt p (access_context c rdir st.memory p.accesses)
            (commentary_section p.name ct) ui st.memory) = Except.ok resp →
        (run_protocol c rdir ui p st).2.genPrompt = st.genPrompt)
    ∧ (∀ e : String,
        c.model (full_prompt p (access_context c rdir st.memory p.accesses)
            (commentary_section p.name ct) ui st.memory) = Except.error e →
        (run_protocol c rdir ui p st).2.genPrompt
          = full_prompt p (access_context c rdir st.memory p.accesses)
              (commentary_section p.name ct) ui st.memory) := by
  rw [run_protocol_run c rdir ui p st ct hin hct]
  constructor
  · intro resp hresp
    rw [hresp]
  · intro e he
    rw [he]

/-- A concrete step for the amended C7: a successful model call restores the
pre-call generate_prompt value. -/
theorem generate_prompt_restore_witness :
    (run_protocol
      { commentary := fun _ => Except.ok "",
        model := fun _ => Except.ok "out",
        fileSys := fun _ => none } "R" "u"
      { name := "A", prompt := "I", accesses := [], include_in_chain := true,
        requires_commentary := false, merge_context := fun a b => a ++ b }
      { memory := "M", genPrompt := "G0" }).2.genPrompt = "G0" := by
  have h := generate_prompt_restore
      { commentary := fun _ => Except.ok "",
        model := fun _ => Except.ok "out",
        fileSys := fun _ => none } "R" "u"
      { name := "A", prompt := "I", accesses := [], include_in_chain := true,
        requires_commentary := false, merge_context := fun a b => a ++ b }
      { memory := "M", genPrompt := "G0" } "" rfl rfl
  exact h.1 "out" rfl

/-- C9: constructing a Protocol fails exactly when its instruction file is
missing, the error names the file, the stored instructions are the file's
content trimmed of surrounding whitespace, and a missing reservoir file
never escapes a chain step (the step's outcome is always the model's answer,
whatever the file system contains). -/
theorem instruction_file_hard_fail (fileSys : String → Option String)
    (name prompt_file : String) (inc rc : Bool)
    (accesses : List (String × String)) :
    ((∃ q, Protocol.init fileSys name prompt_file inc accesses rc = Except.ok q)
       ↔ (∃ t, fileSys prompt_file = some t))
    ∧ (∀ t, fileSys prompt_file = some t →
        ∃ q, Protocol.init fileSys name prompt_file inc accesses rc = Except.ok q
          ∧ q.prompt = pyStrip t)
    ∧ (fileSys prompt_file = none →
        Protocol.init fileSys name prompt_file inc accesses rc
          = Except.error ("Markdown file not found: " ++ prompt_file))
    ∧ (∀ (c : Collab) (rdir ui : String) (p : Protocol) (st : ChainState)
         (ct : String),
        p.include_in_chain = true →
        (if p.requires_commentary then c.commentary p.name else Except.ok "")
          = Except.ok ct →
        (run_protocol c rdir ui p st).1
          = Except.map pyStrip
              (c.model (full_prompt p (access_context c rdir st.memory p.accesses)
                 (commentary_section p.name ct) ui st.memory))) := by
  have hok : ∀ t, fileSys prompt_file = some t →
      Protocol.init fileSys name prompt_file inc accesses rc
        = Except.ok { name := name, prompt := pyStrip t, accesses := accesses,
                      include_in_chain := inc, requires_commentary := rc,
                      merge_context := fun current new => current ++ "\n\n" ++ new } := by
    intro t ht
    unfold Protocol.init load_markdown
    rw [ht]
  have herr : fileSys prompt_file = none →
      Protocol.init fileSys name prompt_file inc accesses rc
        = Except.error ("Markdown file not found: " ++ prompt_file) := by
    intro ht
    unfold Protocol.init load_markdown
    rw [ht]
  refine ⟨?_, ?_, herr, ?_⟩
  · constructor
    · rintro ⟨q, hq⟩
      cases hfs : fileSys prompt_file with
      | none =>
          rw [herr hfs] at hq
          exact absurd hq (by simp)
      | some t => exact ⟨t, rfl⟩
    · rintro ⟨t, ht⟩
      exact ⟨_, hok t ht⟩
  · intro t ht
    exact ⟨_, hok t ht, rfl⟩
  · intro c rdir ui p st ct hin hct
    exact run_protocol_result c rdir ui p st ct hin hct

/-- Concrete instances for C9: a missing instruction file fails hard with
the named file, an existing one stores the trimmed content. -/
theorem instruction_file_hard_fail_witness :
    Protocol.init (fun f => if f = "P.md" then some "  text " else none)
        "A" "missing.md" true [] false
      = Except.error "Markdown file not found: missing.md"
    ∧ ∃ q, Protocol.init (fun f => if f = "P.md" then some "  text " else none)
          "A" "P.md" true [] false = Except.ok q
        ∧ q.prompt = "text" := by
  have h := instruction_file_hard_fail
      (fun f => if f = "P.md" then some "  text " else none)
      "A" "missing.md" true false []
  have h2 := instruction_file_hard_fail
      (fun f => if f = "P.md" then some "  text " else none)
      "A" "P.md" true false []
  constructor
  · exact (h.2.2.1 (by decide)).trans (congrArg Except.error (by decide))
  · obtain ⟨q, hq, hp⟩ := h2.2.1 "  text " (by decide)
    exact ⟨q, hq, hp.trans (by decide)⟩

/-- C10: an access binding whose source, stripped of surrounding whitespace
and lowercased, equals "instance.md" resolves to the working-memory
subsection and never consults the reservoir loader (the resolution is
independent of the file system and the reservoir directory). -/
theorem working_memory_sentinel (c c' : Collab) (rdir rdir' : String)
    (mem label filename : String)
    (h : pyLower (pyStrip filename) = "instance.md") :
    resolve_access c rdir mem label filename
      = some ("### " ++ label ++ " (Working Memory):\n" ++ mem)
    ∧ resolve_access c rdir mem label filename
        = resolve_access c' rdir' mem label filename := by
  constructor
  · simp [resolve_access, h]
  · simp [resolve_access, h]

/-- A concrete binding for C10: the source "Instance.MD " (mixed case plus
trailing whitespace) resolves to working memory for any file system. -/
theorem working_memory_sentinel_witness :
    resolve_access
      { commentary := fun _ => Except.ok "",
        model := fun _ => Except.ok "out",
        fileSys := fun _ => none } "R" "WM" "L" "Instance.MD "
      = some ("### " ++ "L" ++ " (Working Memory):\n" ++ "WM") := by
  have h := working_memory_sentinel
      { commentary := fun _ => Except.ok "",
        model := fun _ => Except.ok "out",
        fileSys := fun _ => none }
      { commentary := fun _ => Except.ok "",
        model := fun _ => Except.ok "out",
        fileSys := fun _ => some "file content" } "R" "R2" "WM" "L" "Instance.MD "
      (by decide)
  exact h.1

/-- A concrete chain refuting C6 as stated: with a model collaborator that
echoes its prompt, run_chain_async records a different result than
run_chain, because the async prompt lacks the commentary slot (one newline
shorter even with no commentary). -/
theorem run_chain_async_differs :
    (run_chain_async
      { commentary := fun _ => Except.ok "",
        model := fun s => Except.ok s,
        fileSys := fun _ => none } "R" "u"
      [{ name := "A", prompt := "I", accesses := [], include_in_chain := true,
         requires_commentary := false, merge_context := fun a b => a ++ b }]
      "G").1
    ≠ (run_chain
      { commentary := fun _ => Except.ok "",
        model := fun s => Except.ok s,
        fileSys := fun _ => none } "R" "u"
      [{ name := "A", prompt := "I", accesses := [], include_in_chain := true,
         requires_commentary := false, merge_context := fun a b => a ++ b }]
      "G").1 := by
  decide

/-- C6 amended: run_chain_async follows the same per-step skeleton in list
order, but collects no commentary and assembles a prompt without the
commentary slot; its ChainResult and final working memory coincide with
run_chain's whenever no protocol requires commentary and the model
collaborator's answer does not depend on the prompt text. -/
theorem run_chain_async_equiv (c : Collab) (rdir ui g0 : String)
    (ps : List Protocol)
    (hcomm : ∀ p ∈ ps, p.requires_commentary = false)
    (hmodel : ∀ s t : String, c.model s = c.model t) :
    (run_chain_async c rdir ui ps g0).1 = (run_chain c rdir ui ps g0).1
    ∧ (run_chain_async c rdir ui ps g0).2.memory
        = (run_chain c rdir ui ps g0).2.memory := by
  have h := chain_loops_agree c rdir ui hmodel ps hcomm []
      (init_state ui g0) (init_state ui g0) rfl
  exact ⟨h.1.symm, h.2.symm⟩

/-- A concrete chain for the amended C6: with a prompt-insensitive model
collaborator the sync and async runs agree. -/
theorem run_chain_async_equiv_witness :
    (run_chain_async
      { commentary := fun _ => Except.ok "",
        model := fun _ => Except.ok " out ",
        fileSys := fun _ => none } "R" "u"
      [{ name := "A", prompt := "I", accesses := [], include_in_chain := true,
         requires_commentary := false, merge_context := fun a b => a ++ b }]
      "G").1
      = (run_chain
      { commentary := fun _ => Except.ok "",
        model := fun _ => Except.ok " out ",
        fileSys := fun _ => none } "R" "u"
      [{ name := "A", prompt := "I", accesses := [], include_in_chain := true,
         requires_commentary := false, merge_context := fun a b => a ++ b }]
      "G").1 := by
  have h := run_chain_async_equiv
      { commentary := fun _ => Except.ok "",
        model := fun _ => Except.ok " out ",
        fileSys := fun _ => none } "R" "u" "G"
      [{ name := "A", prompt := "I", accesses := [], include_in_chain := true,
         requires_commentary := false, merge_context := fun a b => a ++ b }]
      (by decide) (fun s t => rfl)
  exact h.1

end Aleph
